import Mathlib

/-!
Verification development for the product-catalog CRUD service.

The repository ships its unit tests (`tests/test_models.py`,
`tests/test_routes.py`) and the Behave/Selenium step glue
(`features/steps/web_steps.py`).  The service itself
(`service/models.py`, `service/routes.py`) is described by the
specification; the definitions below that embed it carry a
`Modelled from the spec:` note.  The step glue is embedded directly
from `features/steps/web_steps.py`.

Machine conventions: prices are embedded as exact rationals (`Rat`),
JSON scalars as a small inductive, the persistence store as a list of
rows plus an auto-increment counter.
-/

/-- Modelled from the spec: the closed `category` enumeration
(`service/models.py` `Category` is not under `src/`).  The spec names
CLOTHS and FOOD explicitly; the remaining members are representative
of the fixed closed set. -/
inductive Category where
  | UNKNOWN
  | CLOTHS
  | FOOD
  | HOUSEWARES
  | AUTOMOTIVE
  | TOOLS
deriving DecidableEq, Repr

/-- The enumeration member name, as rendered on the wire. -/
def Category.catName : Category → String
  | .UNKNOWN => "UNKNOWN"
  | .CLOTHS => "CLOTHS"
  | .FOOD => "FOOD"
  | .HOUSEWARES => "HOUSEWARES"
  | .AUTOMOTIVE => "AUTOMOTIVE"
  | .TOOLS => "TOOLS"

/-- Look a string up in the enumeration (`getattr(Category, ...)`). -/
def Category.ofName (s : String) : Option Category :=
  if s = "UNKNOWN" then some .UNKNOWN
  else if s = "CLOTHS" then some .CLOTHS
  else if s = "FOOD" then some .FOOD
  else if s = "HOUSEWARES" then some .HOUSEWARES
  else if s = "AUTOMOTIVE" then some .AUTOMOTIVE
  else if s = "TOOLS" then some .TOOLS
  else none

/-- Modelled from the spec: the Product entity (`service/models.py`
`Product` is not under `src/`).  `id` is the surrogate key, `None`
before creation; `price` is a decimal value, embedded exactly as a
rational. -/
structure Product where
  id : Option Nat
  name : String
  description : String
  price : Rat
  available : Bool
  category : Category
deriving DecidableEq, Repr

/-- A JSON scalar as it appears in a product payload. -/
inductive JsonVal where
  | jstr (s : String)
  | jnum (q : Rat)
  | jbool (b : Bool)
  | jnull
deriving DecidableEq, Repr

/-- A wire payload: a mapping from the product field names to JSON
scalars, each key possibly absent. -/
structure WireData where
  id : Option JsonVal
  name : Option JsonVal
  description : Option JsonVal
  price : Option JsonVal
  available : Option JsonVal
  category : Option JsonVal
deriving DecidableEq, Repr

/-- Modelled from the spec: `Product.serialize` of `service/models.py`
(not under `src/`).  Produces a mapping with keys `id, name,
description, price, available, category`; `category` is rendered as
its enumeration name string and `price` as a decimal-preserving
number. -/
def Product.serialize (p : Product) : WireData :=
  ⟨ (match p.id with
      | some i => some (JsonVal.jnum i)
      | none => some JsonVal.jnull),
    some (JsonVal.jstr p.name),
    some (JsonVal.jstr p.description),
    some (JsonVal.jnum p.price),
    some (JsonVal.jbool p.available),
    some (JsonVal.jstr p.category.catName) ⟩

/-- Modelled from the spec: `Product.deserialize` of
`service/models.py` (not under `src/`).  Validates that the required
fields are present and well-typed and that `category` is a recognized
enumeration member; on success populates the entity's attributes,
leaving `id` untouched.  `Except.error` plays the role of
`DataValidationError`. -/
def Product.deserialize (p : Product) (d : WireData) : Except String Product :=
  match d.name with
  | some (JsonVal.jstr n) =>
    match d.description with
    | some (JsonVal.jstr ds) =>
      match d.price with
      | some (JsonVal.jnum pr) =>
        match d.available with
        | some (JsonVal.jbool av) =>
          match d.category with
          | some (JsonVal.jstr c) =>
            match Category.ofName c with
            | some cat => Except.ok ⟨p.id, n, ds, pr, av, cat⟩
            | none => Except.error "Invalid attribute: category"
          | _ => Except.error "Invalid product: missing category"
        | _ => Except.error "Invalid type for boolean [available]"
      | _ => Except.error "Invalid product: missing price"
    | _ => Except.error "Invalid product: missing description"
  | _ => Except.error "Invalid product: missing name"

/-- Modelled from the spec: the entity invariants checked when a
product is created or updated (`price >= 0`, `name` non-empty after
trimming); a violation surfaces as `DataValidationError`, hence 400.
A name is empty after trimming exactly when all of its characters are
whitespace, which is how the trimming condition is embedded. -/
def Product.validate (p : Product) : Bool :=
  decide (0 ≤ p.price) && !(p.name.toList.all Char.isWhitespace)

/-- Modelled from the spec: the persistence store, one row per
Product keyed by `id`, with the auto-increment counter the store uses
to assign surrogate keys on creation. -/
structure Store where
  rows : List Product
  nextId : Nat
deriving DecidableEq, Repr

/-- Modelled from the spec: `Product.all()` — every row, in
store/insertion order. -/
def Store.all (st : Store) : List Product :=
  st.rows

/-- Modelled from the spec: `Product.find(id)` — the row with that
`id`, or absent if none exists (no error). -/
def Store.find (st : Store) (i : Nat) : Option Product :=
  st.rows.find? (fun p => p.id == some i)

/-- Modelled from the spec: `Product.find_by_name` — exact
(case-sensitive) name matches. -/
def Store.find_by_name (st : Store) (n : String) : List Product :=
  st.rows.filter (fun p => p.name == n)

/-- Modelled from the spec: `Product.find_by_availability`. -/
def Store.find_by_availability (st : Store) (b : Bool) : List Product :=
  st.rows.filter (fun p => p.available == b)

/-- Modelled from the spec: `Product.find_by_category` — exact
enumeration-value matches. -/
def Store.find_by_category (st : Store) (c : Category) : List Product :=
  st.rows.filter (fun p => p.category == c)

/-- Modelled from the spec: `Product.create()` — requires `id` unset
conceptually; the store assigns the next surrogate key and persists
the row.  Returns the persisted entity and the new store state. -/
def Store.create (st : Store) (p : Product) : Product × Store :=
  let q : Product := { p with id := some st.nextId }
  (q, ⟨st.rows ++ [q], st.nextId + 1⟩)

/-- Modelled from the spec: `Product.update()` — replaces the stored
row carrying the entity's `id`. -/
def Store.update (st : Store) (q : Product) : Store :=
  ⟨st.rows.map (fun r => if r.id == q.id then q else r), st.nextId⟩

/-- Modelled from the spec: `Product.delete()` — removes the row
permanently; deleting an absent `id` is a no-op. -/
def Store.erase (st : Store) (i : Nat) : Store :=
  ⟨st.rows.filter (fun p => p.id != some i), st.nextId⟩

/-- An HTTP response: status code plus optional serialized product
body. -/
structure Response where
  status : Nat
  body : Option WireData
deriving DecidableEq, Repr

/-- The fresh entity the POST handler deserializes into (`Product()`
with nothing set; its `id` is unset). -/
def Product.fresh : Product :=
  ⟨none, "", "", 0, false, Category.UNKNOWN⟩

/-- Modelled from the spec: `POST /products` (`create_products` of
`service/routes.py`, not under `src/`).  Missing or wrong
`Content-Type` → 415; parse/validation failure → 400 with no row
persisted; otherwise deserialize, `create()`, 201 with the serialized
product. -/
def create_products (contentType : Option String) (body : Option WireData)
    (st : Store) : Response × Store :=
  if contentType ≠ some "application/json" then (⟨415, none⟩, st)
  else
    match body with
    | none => (⟨400, none⟩, st)
    | some d =>
      match Product.fresh.deserialize d with
      | Except.error _ => (⟨400, none⟩, st)
      | Except.ok p =>
        if p.validate then
          let r := st.create p
          (⟨201, some r.1.serialize⟩, r.2)
        else (⟨400, none⟩, st)

/-- Typed extraction of one merge-patch field: absent keeps the old
value, a well-typed value replaces it, a wrong type is a validation
error. -/
def patchStr (old : String) : Option JsonVal → Except String String
  | none => Except.ok old
  | some (JsonVal.jstr s) => Except.ok s
  | some _ => Except.error "Invalid type: expected string"

/-- Typed extraction of the numeric merge-patch field. -/
def patchRat (old : Rat) : Option JsonVal → Except String Rat
  | none => Except.ok old
  | some (JsonVal.jnum q) => Except.ok q
  | some _ => Except.error "Invalid type: expected number"

/-- Typed extraction of the boolean merge-patch field. -/
def patchBool (old : Bool) : Option JsonVal → Except String Bool
  | none => Except.ok old
  | some (JsonVal.jbool b) => Except.ok b
  | some _ => Except.error "Invalid type: expected boolean"

/-- Typed extraction of the category merge-patch field. -/
def patchCat (old : Category) : Option JsonVal → Except String Category
  | none => Except.ok old
  | some (JsonVal.jstr s) =>
    match Category.ofName s with
    | some c => Except.ok c
    | none => Except.error "Invalid attribute: category"
  | some _ => Except.error "Invalid type: expected string"

/-- Modelled from the spec: the merge-patch step of `PUT` — merge the
provided fields into the existing product, leaving absent fields (and
`id`) untouched. -/
def Product.mergePatch (p : Product) (d : WireData) : Except String Product := do
  let n ← patchStr p.name d.name
  let ds ← patchStr p.description d.description
  let pr ← patchRat p.price d.price
  let av ← patchBool p.available d.available
  let c ← patchCat p.category d.category
  Except.ok ⟨p.id, n, ds, pr, av, c⟩

/-- Modelled from the spec: `PUT /products/{id}` (`update_products` of
`service/routes.py`, not under `src/`).  404 if absent; merge the
provided fields, validate, `update()`, 200 with the serialized
product; 400 if the resulting state is invalid. -/
def update_products (pid : Nat) (body : Option WireData) (st : Store) :
    Response × Store :=
  match st.find pid with
  | none => (⟨404, none⟩, st)
  | some p =>
    match body with
    | none => (⟨400, none⟩, st)
    | some d =>
      match p.mergePatch d with
      | Except.error _ => (⟨400, none⟩, st)
      | Except.ok q =>
        if q.validate then (⟨200, some q.serialize⟩, st.update q)
        else (⟨400, none⟩, st)

/-- Modelled from the spec: `DELETE /products/{id}` (`delete_products`
of `service/routes.py`, not under `src/`).  204 regardless of prior
existence (idempotent). -/
def delete_products (pid : Nat) (st : Store) : Response × Store :=
  (⟨204, none⟩, st.erase pid)

/-- A price value held in the step-glue products list: the `given`
step stores a parsed number (`float(row['price'])`), while the
Create branch stores the raw input value unconverted. -/
inductive PriceVal where
  | num (q : Rat)
  | str (s : String)
deriving DecidableEq, Repr

/-- One element of the module-level `products` list of
`features/steps/web_steps.py`: a dict with keys `name, description,
price, available, category`. -/
structure StepProduct where
  name : String
  description : String
  price : PriceVal
  available : Bool
  category : String
deriving DecidableEq, Repr

/-- `find_product` of `features/steps/web_steps.py`: scan the list
and return the first product whose `name` equals the argument, else
`None`. -/
def find_product (products : List StepProduct) (name : String) :
    Option StepProduct :=
  match products with
  | [] => none
  | p :: rest => if p.name = name then some p else find_product rest name

/-- The fields of the Behave `context` object that the press-button
step reads or writes. -/
structure StepContext where
  name_input : String
  description_input : String
  price_input : String
  available_input : String
  category_input : String
  message : Option String
deriving DecidableEq, Repr

/-- One row of the `given the following products` table. -/
structure TableRow where
  name : String
  description : String
  price : Rat
  available : String
  category : String
deriving DecidableEq, Repr

/-- `step_given_products` of `features/steps/web_steps.py`: append
one dict per table row to the module-level `products` list. -/
def step_given_products (rows : List TableRow) (products : List StepProduct) :
    List StepProduct :=
  products ++ rows.map (fun r =>
    ⟨r.name, r.description, PriceVal.num r.price, r.available == "True",
     r.category⟩)

/-- `step_when_press_button` of `features/steps/web_steps.py` (the
second definition of the press step): on "Create" append a product
built from the context inputs and set the message to "Success"; on
"Search" look the name up and set the message; on any other button do
nothing.  Returns the new products list and the new context. -/
def step_when_press_button (button : String) (ctx : StepContext)
    (products : List StepProduct) : List StepProduct × StepContext :=
  if button = "Create" then
    (products ++
      [⟨ctx.name_input, ctx.description_input, PriceVal.str ctx.price_input,
        ctx.available_input == "True", ctx.category_input⟩],
     { ctx with message := some "Success" })
  else if button = "Search" then
    match find_product products ctx.name_input with
    | some p => (products, { ctx with message := some ("Found product: " ++ p.name) })
    | none => (products, { ctx with message := some "Product not found" })
  else (products, ctx)

/-- A step of `features/steps/web_steps.py`, abstracted to its effect
on the module-level `products` list; the steps that only drive the
browser or assert on it never touch `products`. -/
inductive WebStep where
  | givenProducts (rows : List TableRow)
  | visitHomePage
  | seeTitle (text : String)
  | notSeeText (text : String)
  | setField (element text : String)
  | selectDropdown (text element : String)
  | seeDropdown (text element : String)
  | fieldEmpty (element : String)
  | copyField (element : String)
  | pasteField (element : String)
  | seeInResults (name : String)
  | notSeeInResults (name : String)
  | seeMessage (message : String)
  | seeInField (text element : String)
  | changeField (element text : String)
  | pressButton (button : String) (ctx : StepContext)
deriving DecidableEq, Repr

/-- The effect of one step execution on the module-level `products`
list, read off `features/steps/web_steps.py`: only the `given` step
and the "Create" branch of the press step write to the list; every
other step leaves it alone. -/
def stepProducts (s : WebStep) (products : List StepProduct) :
    List StepProduct :=
  match s with
  | .givenProducts rows => step_given_products rows products
  | .pressButton b ctx => (step_when_press_button b ctx products).1
  | _ => products

/-- The `products` list after running a sequence of steps from a
given starting list (the module initializes it to `[]`; scenarios
share it, so state accumulates). -/
def runSteps (steps : List WebStep) (products : List StepProduct) :
    List StepProduct :=
  match steps with
  | [] => products
  | s :: rest => runSteps rest (stepProducts s products)

section Helpers

/-- Resolving an enumeration name succeeds only on the rendered name
of the resulting member. -/
lemma Category.catName_ofName (s : String) (c : Category)
    (h : Category.ofName s = some c) : c.catName = s := by
  unfold Category.ofName at h
  split_ifs at h
  all_goals first
    | exact Option.noConfusion h
    | (obtain rfl := (Option.some.inj h).symm; simp_all [Category.catName])

/-- Inversion for `Except` bind. -/
lemma except_bind_ok {ε α β : Type} (e : Except ε α) (f : α → Except ε β)
    (b : β) (h : (e >>= f) = Except.ok b) :
    ∃ a, e = Except.ok a ∧ f a = Except.ok b := by
  cases e with
  | error err => simp [Bind.bind, Except.bind] at h
  | ok a => exact ⟨a, rfl, h⟩

/-- Inversion for a successful deserialization: each wire field is
present and well-typed, and `id` is left untouched. -/
lemma deserialize_ok_fields (p0 p : Product) (d : WireData)
    (hd : p0.deserialize d = Except.ok p) :
    p.id = p0.id ∧
    d.name = some (JsonVal.jstr p.name) ∧
    d.description = some (JsonVal.jstr p.description) ∧
    d.price = some (JsonVal.jnum p.price) ∧
    d.available = some (JsonVal.jbool p.available) ∧
    d.category = some (JsonVal.jstr p.category.catName) := by
  obtain ⟨di, dn, dds, dp, dav, dc⟩ := d
  unfold Product.deserialize at hd
  cases dn with
  | none => simp at hd
  | some v =>
  cases v with
  | jnum q1 => simp at hd
  | jbool b1 => simp at hd
  | jnull => simp at hd
  | jstr n =>
  cases dds with
  | none => simp at hd
  | some v =>
  cases v with
  | jnum q1 => simp at hd
  | jbool b1 => simp at hd
  | jnull => simp at hd
  | jstr ds =>
  cases dp with
  | none => simp at hd
  | some v =>
  cases v with
  | jstr s1 => simp at hd
  | jbool b1 => simp at hd
  | jnull => simp at hd
  | jnum pr =>
  cases dav with
  | none => simp at hd
  | some v =>
  cases v with
  | jstr s1 => simp at hd
  | jnum q1 => simp at hd
  | jnull => simp at hd
  | jbool av =>
  cases dc with
  | none => simp at hd
  | some v =>
  cases v with
  | jnum q1 => simp at hd
  | jbool b1 => simp at hd
  | jnull => simp at hd
  | jstr c =>
  cases hofn : Category.ofName c with
  | none => simp [hofn] at hd
  | some cat =>
    simp [hofn] at hd
    subst hd
    exact ⟨rfl, rfl, rfl, rfl, rfl,
      by rw [Category.catName_ofName c cat hofn]⟩

end Helpers

/-- C3: for every Product P, deserializing the mapping produced by
`serialize(P)` yields an entity carrying P's name, description,
price, available and category (`id` is the target entity's,
untouched); `serialize` renders `category` as the enumeration name
string and `price` as the exact decimal value. -/
theorem serialize_deserialize_roundtrip (p p0 : Product) :
    p0.deserialize p.serialize =
      Except.ok ⟨p0.id, p.name, p.description, p.price, p.available,
        p.category⟩ ∧
    p.serialize.category = some (JsonVal.jstr p.category.catName) ∧
    p.serialize.price = some (JsonVal.jnum p.price) := by
  refine ⟨?_, rfl, rfl⟩
  cases p with
  | mk i n ds pr av c =>
    cases c <;>
      simp [Product.serialize, Product.deserialize, Category.ofName,
        Category.catName]

/-- C3 witness: the round trip evaluated on a concrete product. -/
theorem serialize_deserialize_roundtrip_witness :
    Product.fresh.deserialize
        (Product.serialize ⟨some 1, "Hat", "A red fedora", 12, true,
          Category.CLOTHS⟩) =
      Except.ok ⟨none, "Hat", "A red fedora", 12, true, Category.CLOTHS⟩ :=
  (serialize_deserialize_roundtrip
    ⟨some 1, "Hat", "A red fedora", 12, true, Category.CLOTHS⟩
    Product.fresh).1

/-- C4: the store assigns a non-null `id` on creation, and two
successive creations assign distinct `id`s. -/
theorem create_assigns_unique_ids (st : Store) (p1 p2 : Product) :
    (st.create p1).1.id ≠ none ∧
    ((st.create p1).2.create p2).1.id ≠ none ∧
    (st.create p1).1.id ≠ ((st.create p1).2.create p2).1.id := by
  refine ⟨by simp [Store.create], by simp [Store.create], ?_⟩
  simp [Store.create]

/-- C4 witness: id assignment evaluated on a concrete store. -/
theorem create_assigns_unique_ids_witness :
    ((⟨[], 1⟩ : Store).create Product.fresh).1.id ≠ none :=
  (create_assigns_unique_ids ⟨[], 1⟩ Product.fresh Product.fresh).1

/-- C5: DELETE always answers 204, whether or not the id exists, and
afterwards no row with that id remains in the store. -/
theorem delete_products_idempotent (pid : Nat) (st : Store) :
    (delete_products pid st).1.status = 204 ∧
    ∀ p ∈ (delete_products pid st).2.rows, p.id ≠ some pid := by
  refine ⟨rfl, ?_⟩
  intro p hp
  simp [delete_products, Store.erase, List.mem_filter] at hp
  exact hp.2

/-- C5 witness: deleting from a store that lacks the id still answers
204. -/
theorem delete_products_idempotent_witness :
    (delete_products 7 (⟨[], 1⟩ : Store)).1.status = 204 :=
  (delete_products_idempotent 7 ⟨[], 1⟩).1

/-- An empty store, as each test starts with. -/
def storeEmpty : Store := ⟨[], 1⟩

/-- A payload valid except for its negative price
(`test_create_product_with_invalid_price`). -/
def wireNegPrice : WireData :=
  ⟨none, some (JsonVal.jstr "Fedora"), some (JsonVal.jstr "A red hat"),
   some (JsonVal.jnum (-10)), some (JsonVal.jbool true),
   some (JsonVal.jstr "CLOTHS")⟩

/-- A payload with every field missing. -/
def wireEmptyFields : WireData := ⟨none, none, none, none, none, none⟩

/-- C1: a POST whose payload carries a negative price answers 400 and
leaves the store unchanged — no row is persisted. -/
theorem create_products_negative_price (st : Store) (d : WireData) (q : Rat)
    (hprice : d.price = some (JsonVal.jnum q)) (hneg : q < 0) :
    (create_products (some "application/json") (some d) st).1.status = 400 ∧
    (create_products (some "application/json") (some d) st).2 = st := by
  cases hdes : Product.fresh.deserialize d with
  | error e =>
    constructor <;> simp [create_products, hdes]
  | ok p =>
    have hp : p.price = q := by
      have h := (deserialize_ok_fields Product.fresh p d hdes).2.2.2.1
      have h2 : some (JsonVal.jnum p.price) = some (JsonVal.jnum q) := by
        rw [← h, hprice]
      simpa using h2
    have hnle : ¬ (0 ≤ p.price) := by rw [hp]; exact not_le.mpr hneg
    have hval : p.validate = false := by
      simp [Product.validate, hnle]
    constructor <;> simp [create_products, hdes, hval]

/-- C1 witness: the negative-price payload of the test, against the
empty store. -/
theorem create_products_negative_price_witness :
    (create_products (some "application/json") (some wireNegPrice)
        storeEmpty).1.status = 400 ∧
    (create_products (some "application/json") (some wireNegPrice)
        storeEmpty).2 = storeEmpty :=
  create_products_negative_price storeEmpty wireNegPrice (-10) rfl
    (by norm_num)

/-- C7: a POST whose Content-Type is missing or not application/json
answers 415 with the store untouched, while a body that fails
deserialization under the correct Content-Type answers 400. -/
theorem create_products_content_type (st : Store) (ct : Option String)
    (body : Option WireData) (d : WireData) (e : String)
    (hct : ct ≠ some "application/json")
    (hde : Product.fresh.deserialize d = Except.error e) :
    create_products ct body st = (⟨415, none⟩, st) ∧
    create_products (some "application/json") (some d) st =
      (⟨400, none⟩, st) := by
  constructor
  · simp [create_products, hct]
  · simp [create_products, hde]

/-- C7 witness: a request with no Content-Type answers 415; a JSON
body with every field missing answers 400. -/
theorem create_products_content_type_witness :
    create_products none (some wireEmptyFields) storeEmpty =
      (⟨415, none⟩, storeEmpty) ∧
    create_products (some "application/json") (some wireEmptyFields)
      storeEmpty = (⟨400, none⟩, storeEmpty) :=
  create_products_content_type storeEmpty none (some wireEmptyFields)
    wireEmptyFields "Invalid product: missing name" (by simp) rfl

/-- Inversion for a successful merge patch: `id` is untouched and
each field comes from its typed extraction. -/
lemma mergePatch_ok (p q : Product) (d : WireData)
    (h : p.mergePatch d = Except.ok q) :
    q.id = p.id ∧
    patchStr p.name d.name = Except.ok q.name ∧
    patchStr p.description d.description = Except.ok q.description ∧
    patchRat p.price d.price = Except.ok q.price ∧
    patchBool p.available d.available = Except.ok q.available ∧
    patchCat p.category d.category = Except.ok q.category := by
  unfold Product.mergePatch at h
  obtain ⟨n, hn, h⟩ := except_bind_ok _ _ _ h
  obtain ⟨ds, hds, h⟩ := except_bind_ok _ _ _ h
  obtain ⟨pr, hpr, h⟩ := except_bind_ok _ _ _ h
  obtain ⟨av, hav, h⟩ := except_bind_ok _ _ _ h
  obtain ⟨c, hc, h⟩ := except_bind_ok _ _ _ h
  injection h with h
  subst h
  exact ⟨rfl, hn, hds, hpr, hav, hc⟩

/-- After replacing the row that carries the found id, looking the id
up returns the replacement. -/
lemma find_after_update (rows : List Product) (pid : Nat) (p q : Product)
    (hid : q.id = p.id)
    (hfind : rows.find? (fun r => r.id == some pid) = some p) :
    (rows.map (fun r => if r.id == q.id then q else r)).find?
      (fun r => r.id == some pid) = some q := by
  have hpid : p.id = some pid := by
    have h := List.find?_some hfind
    simpa using h
  induction rows with
  | nil => simp at hfind
  | cons r rest ih =>
    rw [List.map_cons]
    by_cases hr : r.id = some pid
    · have hrp : r = p := by
        rw [List.find?_cons_of_pos] at hfind
        · exact Option.some.inj hfind
        · simpa using hr
      rw [show (if r.id == q.id then q else r) = q by simp [hrp, hid]]
      exact List.find?_cons_of_pos _ (by simp [hid, hpid])
    · rw [show (if r.id == q.id then q else r) = r by simp [hid, hpid, hr]]
      rw [List.find?_cons_of_neg _ (by simp [hr])] at hfind
      rw [List.find?_cons_of_neg _ (by simp [hr])]
      exact ih hfind

/-- C2: PUT on an existing product merges exactly the provided
fields: the response is 200, the store keeps every row except that
the found row is replaced, a subsequent lookup returns the merged
product, `id` and every field absent from the request body are
unchanged; PUT on an absent id answers 404 and leaves the store
unchanged. -/
theorem update_products_merge (st : Store) (pid : Nat) (d : WireData)
    (p q : Product)
    (hfind : st.find pid = some p)
    (hmerge : p.mergePatch d = Except.ok q)
    (hval : q.validate = true) :
    (update_products pid (some d) st).1.status = 200 ∧
    (update_products pid (some d) st).2 = st.update q ∧
    (update_products pid (some d) st).2.find pid = some q ∧
    q.id = p.id ∧
    (d.name = none → q.name = p.name) ∧
    (d.description = none → q.description = p.description) ∧
    (d.price = none → q.price = p.price) ∧
    (d.available = none → q.available = p.available) ∧
    (d.category = none → q.category = p.category) ∧
    (∀ st2 pid2 b2, Store.find st2 pid2 = none →
      update_products pid2 b2 st2 = (⟨404, none⟩, st2)) := by
  obtain ⟨hqid, hn, hds, hpr, hav, hc⟩ := mergePatch_ok p q d hmerge
  have hupd : update_products pid (some d) st =
      (⟨200, some q.serialize⟩, st.update q) := by
    simp [update_products, hfind, hmerge, hval]
  refine ⟨by rw [hupd], by rw [hupd], ?_, hqid, ?_, ?_, ?_, ?_, ?_, ?_⟩
  · rw [hupd]
    have hfind2 : st.rows.find? (fun r => r.id == some pid) = some p := hfind
    simpa [Store.find, Store.update] using
      find_after_update st.rows pid p q hqid hfind2
  · intro h
    rw [h] at hn
    simp [patchStr] at hn
    exact hn.symm
  · intro h
    rw [h] at hds
    simp [patchStr] at hds
    exact hds.symm
  · intro h
    rw [h] at hpr
    simp [patchRat] at hpr
    exact hpr.symm
  · intro h
    rw [h] at hav
    simp [patchBool] at hav
    exact hav.symm
  · intro h
    rw [h] at hc
    simp [patchCat] at hc
    exact hc.symm
  · intro st2 pid2 b2 h
    simp [update_products, h]

/-- A concrete stored product and store for evaluation. -/
def prodHat : Product := ⟨some 1, "Hat", "A red fedora", 12, true,
  Category.CLOTHS⟩

/-- A store holding exactly `prodHat`. -/
def storeHat : Store := ⟨[prodHat], 2⟩

/-- A PUT body supplying only the `name` field. -/
def wireNameOnly : WireData :=
  ⟨none, some (JsonVal.jstr "New Name"), none, none, none, none⟩

/-- C2 witness: a name-only PUT on the concrete store answers 200. -/
theorem update_products_merge_witness :
    (update_products 1 (some wireNameOnly) storeHat).1.status = 200 :=
  (update_products_merge storeHat 1 wireNameOnly prodHat
    ⟨some 1, "New Name", "A red fedora", 12, true, Category.CLOTHS⟩
    rfl rfl (by decide)).1

/-- C6: each query returns exactly the stored rows whose field equals
the query value, and when exactly one stored row carries the value
the result has length one. -/
theorem find_queries_exact (st : Store) (n : String) (b : Bool)
    (c : Category) (p : Product) :
    (p ∈ st.find_by_name n ↔ p ∈ st.rows ∧ p.name = n) ∧
    (p ∈ st.find_by_availability b ↔ p ∈ st.rows ∧ p.available = b) ∧
    (p ∈ st.find_by_category c ↔ p ∈ st.rows ∧ p.category = c) ∧
    (st.rows.countP (fun r => r.name == n) = 1 →
      (st.find_by_name n).length = 1) ∧
    (st.rows.countP (fun r => r.available == b) = 1 →
      (st.find_by_availability b).length = 1) ∧
    (st.rows.countP (fun r => r.category == c) = 1 →
      (st.find_by_category c).length = 1) := by
  refine ⟨?_, ?_, ?_, ?_, ?_, ?_⟩
  · simp [Store.find_by_name, List.mem_filter]
  · simp [Store.find_by_availability, List.mem_filter]
  · simp [Store.find_by_category, List.mem_filter]
  · intro h
    rw [Store.find_by_name, ← List.countP_eq_length_filter]
    exact h
  · intro h
    rw [Store.find_by_availability, ← List.countP_eq_length_filter]
    exact h
  · intro h
    rw [Store.find_by_category, ← List.countP_eq_length_filter]
    exact h

/-- C6 witness: on the concrete one-product store, the name query for
the unique match returns exactly one row. -/
theorem find_queries_exact_witness :
    (storeHat.find_by_name "Hat").length = 1 :=
  (find_queries_exact storeHat "Hat" true Category.CLOTHS
    prodHat).2.2.2.1 (by decide)

/-- When no element of the list carries the name, the scan returns
`None`. -/
lemma find_product_eq_none (ps : List StepProduct) (n : String)
    (h : ∀ q ∈ ps, q.name ≠ n) : find_product ps n = none := by
  induction ps with
  | nil => rfl
  | cons r rest ih =>
    simp only [find_product]
    rw [if_neg (h r (by simp))]
    exact ih (fun q hq => h q (by simp [hq]))

/-- The scan returns the first element, in list order, carrying the
name. -/
lemma find_product_first (l1 l2 : List StepProduct) (p : StepProduct)
    (n : String) (h1 : ∀ x ∈ l1, x.name ≠ n) (hp : p.name = n) :
    find_product (l1 ++ p :: l2) n = some p := by
  induction l1 with
  | nil => simp [find_product, hp]
  | cons r rest ih =>
    rw [List.cons_append]
    simp only [find_product]
    rw [if_neg (h1 r (by simp))]
    exact ih (fun x hx => h1 x (by simp [hx]))

/-- C8: `find_product` returns `None` exactly when no element's name
matches, and on any list that decomposes as a prefix without the
name followed by a matching element, it returns that first matching
element. -/
theorem find_product_first_match (ps l1 l2 : List StepProduct)
    (p : StepProduct) (n : String) :
    ((∀ q ∈ ps, q.name ≠ n) → find_product ps n = none) ∧
    ((∀ x ∈ l1, x.name ≠ n) → p.name = n →
      find_product (l1 ++ p :: l2) n = some p) :=
  ⟨find_product_eq_none ps n, find_product_first l1 l2 p n⟩

/-- A first concrete step product. -/
def hatStep : StepProduct :=
  ⟨"Hat", "A red fedora", PriceVal.num 12, true, "CLOTHS"⟩

/-- A second concrete step product. -/
def capStep : StepProduct :=
  ⟨"Cap", "A blue cap", PriceVal.num 5, true, "CLOTHS"⟩

/-- C8 witness: the scan skips the non-matching head and returns the
first match. -/
theorem find_product_first_match_witness :
    find_product ([hatStep] ++ capStep :: []) "Cap" = some capStep :=
  (find_product_first_match [hatStep, capStep] [hatStep] [] capStep
    "Cap").2 (by decide) rfl

/-- Every single step leaves the `products` list at least as long as
it was. -/
lemma stepProducts_length (s : WebStep) (ps : List StepProduct) :
    ps.length ≤ (stepProducts s ps).length := by
  cases s with
  | givenProducts rows => simp [stepProducts, step_given_products]
  | pressButton b ctx =>
    simp only [stepProducts, step_when_press_button]
    split
    · simp
    · split
      · split <;> simp
      · simp
  | visitHomePage => simp [stepProducts]
  | seeTitle t => simp [stepProducts]
  | notSeeText t => simp [stepProducts]
  | setField e t => simp [stepProducts]
  | selectDropdown t e => simp [stepProducts]
  | seeDropdown t e => simp [stepProducts]
  | fieldEmpty e => simp [stepProducts]
  | copyField e => simp [stepProducts]
  | pasteField e => simp [stepProducts]
  | seeInResults nm => simp [stepProducts]
  | notSeeInResults nm => simp [stepProducts]
  | seeMessage m => simp [stepProducts]
  | seeInField t e => simp [stepProducts]
  | changeField e t => simp [stepProducts]

/-- C10: the module-level products list only ever grows: the `given`
step appends its table rows, the "Create" branch of the press step
appends one product, and across any sequence of step executions the
length never decreases. -/
theorem products_length_monotone (steps : List WebStep)
    (ps : List StepProduct) (rows : List TableRow) (ctx : StepContext) :
    ps.length ≤ (runSteps steps ps).length ∧
    stepProducts (WebStep.givenProducts rows) ps =
      ps ++ rows.map (fun r =>
        ⟨r.name, r.description, PriceVal.num r.price,
         r.available == "True", r.category⟩) ∧
    stepProducts (WebStep.pressButton "Create" ctx) ps =
      ps ++ [⟨ctx.name_input, ctx.description_input,
        PriceVal.str ctx.price_input, ctx.available_input == "True",
        ctx.category_input⟩] := by
  refine ⟨?_, rfl, rfl⟩
  induction steps generalizing ps with
  | nil => simp [runSteps]
  | cons s rest ih =>
    calc ps.length ≤ (stepProducts s ps).length := stepProducts_length s ps
    _ ≤ (runSteps rest (stepProducts s ps)).length := ih (stepProducts s ps)
    _ = (runSteps (s :: rest) ps).length := rfl

/-- A concrete step context. -/
def ctxDemo : StepContext :=
  ⟨"Hat", "A red fedora", "12.50", "True", "CLOTHS", none⟩

/-- C10 witness: a concrete step sequence never shrinks the list. -/
theorem products_length_monotone_witness :
    ([hatStep] : List StepProduct).length ≤
      (runSteps [WebStep.visitHomePage,
        WebStep.pressButton "Delete" ctxDemo] [hatStep]).length :=
  (products_length_monotone
    [WebStep.visitHomePage, WebStep.pressButton "Delete" ctxDemo]
    [hatStep] [] ctxDemo).1
